import Mathlib

/-!
Shallow embedding of `src/hobo.py` (class `Hobo`, method `from_csv`) and
verification of the specification's claims about its header-interpretation
and column-identity resolution logic.

Modelling conventions:
* A line source is a `List String`; each element is one line of the file with
  its trailing newline already removed (Python's `next(self.f)` yields the
  line with the newline; every use in the source either strips it or is
  insensitive to it, so the newline-free model is observationally equal).
* Python exceptions are modelled by the `Exc` error type threaded through
  `Except`; `Exc.stopIteration` is the `StopIteration` raised by `next` on an
  exhausted file (the failure the spec names `HeaderNotFoundError`),
  `Exc.indexError` is a list-index-out-of-range, `Exc.attributeError` is
  `None.attr` access, `Exc.typeError` covers subscripting `None`.
* Machine strings are Lean `String`s (lists of unicode scalar chars), exactly
  as Python 3 `str`.
-/

namespace Hobo

/-- Python exception kinds that `from_csv` can raise. -/
inductive Exc
  | stopIteration
  | indexError
  | attributeError
  | typeError
deriving DecidableEq

instance {ε α : Type} [DecidableEq ε] [DecidableEq α] : DecidableEq (Except ε α) :=
  fun x y =>
    match x, y with
    | Except.ok a, Except.ok b =>
      if h : a = b then isTrue (by rw [h]) else isFalse (fun he => by cases he; exact h rfl)
    | Except.ok _, Except.error _ => isFalse (fun he => by cases he)
    | Except.error _, Except.ok _ => isFalse (fun he => by cases he)
    | Except.error e, Except.error f =>
      if h : e = f then isTrue (by rw [h]) else isFalse (fun he => by cases he; exact h rfl)

/-- Python `l[i]`: `IndexError` when out of range. -/
def pyGet {α : Type} (l : List α) (i : Nat) : Except Exc α :=
  match l.get? i with
  | some a => Except.ok a
  | none => Except.error Exc.indexError

/-- Is an `Except` a success? -/
def exIsOk {α : Type} : Except Exc α → Bool
  | Except.ok _ => true
  | Except.error _ => false

/-- The success value of an `Except`, if any. -/
def exToOption {α : Type} : Except Exc α → Option α
  | Except.ok a => some a
  | Except.error _ => none

/-- Characters stripped by Python's no-argument `str.strip()` (ASCII subset;
the inputs in scope contain no other whitespace). -/
def isPySpace (c : Char) : Bool :=
  c == ' ' || c == '\t' || c == '\n' || c == '\r' || c == '\x0b' || c == '\x0c'

/-- Strip characters satisfying `p` from both ends of a char list. -/
def stripL (p : Char → Bool) (cs : List Char) : List Char :=
  ((cs.dropWhile p).reverse.dropWhile p).reverse

/-- Python `s.strip()`. -/
def pyStrip (s : String) : String := String.mk (stripL isPySpace s.data)

/-- Python `s.strip(chars)` for an explicit character set. -/
def pyStripChars (s : String) (chars : List Char) : String :=
  String.mk (stripL (fun c => chars.contains c) s.data)

/-- Worker for Python `s.split(sep)` (split on every occurrence). -/
def splitAllAux (sep : Char) : List Char → List Char → List (List Char)
  | [], acc => [acc.reverse]
  | c :: rest, acc =>
    if c = sep then acc.reverse :: splitAllAux sep rest []
    else splitAllAux sep rest (c :: acc)

/-- Python `s.split(sep)` with a one-character separator. -/
def pySplitAll (sep : Char) (s : String) : List String :=
  (splitAllAux sep s.data []).map String.mk

/-- Worker for Python `s.split(sep, maxsplit)`. -/
def splitNAux (sep : Char) : Nat → List Char → List Char → List (List Char)
  | _, [], acc => [acc.reverse]
  | 0, rest, acc => [acc.reverse ++ rest]
  | n + 1, c :: rest, acc =>
    if c = sep then acc.reverse :: splitNAux sep n rest []
    else splitNAux sep (n + 1) rest (c :: acc)

/-- Python `s.split(sep, maxsplit)` with a one-character separator. -/
def pySplitN (sep : Char) (n : Nat) (s : String) : List String :=
  (splitNAux sep n s.data []).map String.mk

/-- Python `s.rsplit(sep, 1)`: split once at the last occurrence. -/
def pyRSplit1 (sep : Char) (s : String) : List String :=
  let parts := pySplitAll sep s
  match parts.getLast? with
  | none => [s]
  | some last =>
    if parts.length ≤ 1 then [s]
    else [String.intercalate (String.singleton sep) parts.dropLast, last]

/-- Does `needle` begin `hay`? -/
def startsWithL : List Char → List Char → Bool
  | [], _ => true
  | _ :: _, [] => false
  | n :: ns, h :: hs => n == h && startsWithL ns hs

/-- Worker for Python substring containment. -/
def containsSub (needle : List Char) : List Char → Bool
  | [] => startsWithL needle []
  | h :: hs => startsWithL needle (h :: hs) || containsSub needle hs

/-- Python `needle in s` for strings. -/
def pyContains (needle s : String) : Bool := containsSub needle.data s.data

/-! ### The CSV record parser

`find_columns` does `next(csv.reader(StringIO(header)))` — one CSV record
with Python's default dialect (delimiter `,`, quote `"`, doubled quotes,
non-strict). We embed that state machine over the characters of one line. -/

/-- States of Python's `_csv` reader automaton within one record. -/
inductive CsvSt
  | startF
  | inF
  | inQ
  | afterQ

/-- The `csv.reader` record automaton (default dialect, non-strict):
`startF` = start of a field, `inF` = inside an unquoted field, `inQ` =
inside a quoted field, `afterQ` = just after a closing quote. -/
def csvAux : CsvSt → List Char → List Char → List (List Char) → List (List Char)
  | _, [], field, acc => (field.reverse :: acc).reverse
  | CsvSt.startF, c :: rest, field, acc =>
    if c = '"' then csvAux CsvSt.inQ rest field acc
    else if c = ',' then csvAux CsvSt.startF rest [] (field.reverse :: acc)
    else csvAux CsvSt.inF rest (c :: field) acc
  | CsvSt.inF, c :: rest, field, acc =>
    if c = ',' then csvAux CsvSt.startF rest [] (field.reverse :: acc)
    else csvAux CsvSt.inF rest (c :: field) acc
  | CsvSt.inQ, c :: rest, field, acc =>
    if c = '"' then csvAux CsvSt.afterQ rest field acc
    else csvAux CsvSt.inQ rest (c :: field) acc
  | CsvSt.afterQ, c :: rest, field, acc =>
    if c = '"' then csvAux CsvSt.inQ rest ('"' :: field) acc
    else if c = ',' then csvAux CsvSt.startF rest [] (field.reverse :: acc)
    else csvAux CsvSt.inF rest (c :: field) acc

/-- `next(csv.reader(StringIO(line)))`: the parsed field list of one line.
A blank line (empty after removing its newline) yields the empty record,
matching `csv.reader` on a lone `"\n"`. -/
def csvParse (s : String) : List String :=
  match s.data with
  | [] => []
  | cs => (csvAux CsvSt.startF cs [] []).map String.mk

/-! ### The serial-number regular expression

`SN_REGEX = re.compile(r'(?:LGR S/N: |Serial Number:)(\d+)')` and
`SN_REGEX.search(line)` (src/hobo.py line 9 and lines 133–135). Note the
raw pattern: a space follows `LGR S/N:` but none follows `Serial Number:`. -/

/-- Maximal leading digit run. -/
def digitsPrefix (cs : List Char) : List Char := cs.takeWhile (fun c => c.isDigit)

/-- Attempt to match `SN_REGEX` at one position: one of the two literal
alternatives followed by at least one digit; the capture is the maximal
digit run (`\d+` is greedy). -/
def snMatchAt (cs : List Char) : Option String :=
  if startsWithL "LGR S/N: ".data cs then
    let ds := digitsPrefix (cs.drop 9)
    if ds = [] then none else some (String.mk ds)
  else if startsWithL "Serial Number:".data cs then
    let ds := digitsPrefix (cs.drop 14)
    if ds = [] then none else some (String.mk ds)
  else none

/-- `re.search`: try to match at each position left to right. -/
def snSearchL : List Char → Option String
  | [] => none
  | c :: rest =>
    match snMatchAt (c :: rest) with
    | some s => some s
    | none => snSearchL rest

/-- `SN_REGEX.search(line)` returning the captured digit group. -/
def snSearch (s : String) : Option String := snSearchL s.data

/-! ### The header-field descriptor extractors (src/hobo.py lines 56–71) -/

/-- `find_units` (lines 56–59):
`header.split(",", 2)[1].strip()` then `.split(" ")[0].strip()`. -/
def find_units (header : String) : Except Exc String :=
  match pyGet (pySplitN ',' 2 header) 1 with
  | Except.error e => Except.error e
  | Except.ok seg =>
    let header_units := pyStrip seg
    match pyGet (pySplitAll ' ' header_units) 0 with
    | Except.error e => Except.error e
    | Except.ok w => Except.ok (pyStrip w)

/-- `find_name` (lines 61–67): take the segment after the last comma,
strip `" )"`, and if it reads `LBL: x` the name is `x`; otherwise the text
before the first comma. -/
def find_name (header : String) : Except Exc String :=
  match pyGet (pyRSplit1 ',' header) 1 with
  | Except.error e => Except.error e
  | Except.ok seg =>
    let header_name := pyStripChars seg [' ', ')']
    match pyGet (pySplitAll ':' header_name) 0 with
    | Except.error e => Except.error e
    | Except.ok k =>
      if pyStrip k = "LBL" then
        match pyGet (pySplitAll ':' header_name) 1 with
        | Except.error e => Except.error e
        | Except.ok v => Except.ok (pyStrip v)
      else
        match pyGet (pySplitN ',' 1 header) 0 with
        | Except.error e => Except.error e
        | Except.ok n => Except.ok (pyStrip n)

/-- `find_long_name` (lines 69–71): the text before the first comma, trimmed. -/
def find_long_name (header : String) : Except Exc String :=
  match pyGet (pySplitN ',' 1 header) 0 with
  | Except.error e => Except.error e
  | Except.ok n => Except.ok (pyStrip n)

/-! ### Channel classification (src/hobo.py lines 73–126) -/

/-- One `self.name[...]` entry once populated:
`[find_name(h), find_long_name(h), find_units(h)]`. -/
structure Descr where
  name : String
  long_name : String
  units : String
deriving DecidableEq

/-- The `[find_name(header), find_long_name(header), find_units(header)]`
value assigned to a `self.name` slot, with Python's left-to-right
evaluation and exception propagation. -/
def setDescr (h : String) : Except Exc Descr :=
  match find_name h with
  | Except.error e => Except.error e
  | Except.ok n =>
    match find_long_name h with
    | Except.error e => Except.error e
    | Except.ok ln =>
      match find_units h with
      | Except.error e => Except.error e
      | Except.ok u => Except.ok { name := n, long_name := ln, units := u }

/-- Timestamp-marker predicate of `find_col_timestamp` (line 75). -/
def tsMatch (h : String) : Bool :=
  pyContains "Date Time" h || pyContains "Fecha Tiempo" h

/-- Primary temperature predicate (line 80). -/
def tempPrimaryMatch (h : String) : Bool :=
  pyContains "High Res. Temp." h || pyContains "High-Res Temp" h

/-- Fallback temperature predicate (line 87): any of the three substrings. -/
def tempFallbackMatch (h : String) : Bool :=
  pyContains "Temp," h || pyContains "Temp." h || pyContains "Temperature" h

/-- Pressure predicate (line 97). -/
def presMatch (h : String) : Bool := pyContains "Pres abs," h

/-- Relative-humidity predicate (line 106). -/
def rhMatch (h : String) : Bool := pyContains "RH," h

/-- Battery predicate (line 113). -/
def battMatch (h : String) : Bool := pyContains "Batt, V" h

/-- Does a field's classification trigger descriptor extraction in any of the
four channel finders? -/
def fieldNeedsDescr (h : String) : Bool :=
  tempPrimaryMatch h || tempFallbackMatch h || presMatch h || rhMatch h || battMatch h

/-- `find_col_timestamp` (lines 73–76): index of the first field containing a
timestamp marker, `None` if none does. -/
def findMarkerIdx : List String → Nat → Option Nat
  | [], _ => none
  | h :: t, i => if tsMatch h then some i else findMarkerIdx t (i + 1)

/-- `find_col_timestamp(headers)`. -/
def find_col_timestamp (headers : List String) : Option Nat :=
  findMarkerIdx headers 0

/-- One `for i, header in enumerate(headers): if m(header): slot = descr(header)`
pass: every match overwrites the slot, so the last match wins; a descriptor
extraction error aborts the scan (propagating the Python exception). -/
def passUpdate (m : String → Bool) : List String → Option Descr → Except Exc (Option Descr)
  | [], cur => Except.ok cur
  | h :: t, cur =>
    if m h then
      match setDescr h with
      | Except.error e => Except.error e
      | Except.ok d => passUpdate m t (some d)
    else passUpdate m t cur

/-- `find_col_temperature` (lines 78–93): the primary pass runs first, then
the fallback pass runs unconditionally over the same fields. -/
def find_col_temperature (headers : List String) (cur : Option Descr) :
    Except Exc (Option Descr) :=
  match passUpdate tempPrimaryMatch headers cur with
  | Except.error e => Except.error e
  | Except.ok r1 => passUpdate tempFallbackMatch headers r1

/-- `find_col_preassure` (lines 95–102; the source's spelling). -/
def find_col_preassure (headers : List String) (cur : Option Descr) :
    Except Exc (Option Descr) :=
  passUpdate presMatch headers cur

/-- `find_col_rh` (lines 104–109). -/
def find_col_rh (headers : List String) (cur : Option Descr) :
    Except Exc (Option Descr) :=
  passUpdate rhMatch headers cur

/-- `find_col_battery` (lines 111–116). -/
def find_col_battery (headers : List String) (cur : Option Descr) :
    Except Exc (Option Descr) :=
  passUpdate battMatch headers cur

/-! ### The header scan (src/hobo.py lines 118–140) -/

/-- The mutable state of `from_csv` that the header scan threads:
`self.title`, `self.sn`, `self.timestamp`, `self.headers`, `self.name`. -/
structure ScanState where
  title : Option (List String)
  sn : Option String
  timestamp : Option Nat
  headers : List String
  temp : Option Descr
  pres : Option Descr
  rh : Option Descr
  batt : Option Descr
deriving DecidableEq

/-- The state just after the declarations at lines 47–54. -/
def initState : ScanState :=
  { title := none, sn := none, timestamp := none, headers := []
    temp := none, pres := none, rh := none, batt := none }

/-- `self.title = header.strip().split(":")` (line 132): the stripped line is
split on EVERY colon. -/
def titleOf (line : String) : List String := pySplitAll ':' (pyStrip line)

/-- `find_columns(header)` (lines 118–126): parse the line as one CSV record,
record the field list and the timestamp index, then run the four channel
finders (each of which may raise). -/
def find_columns (st : ScanState) (header : String) : Except Exc ScanState :=
  let headers := csvParse header
  match find_col_temperature headers st.temp with
  | Except.error e => Except.error e
  | Except.ok temp =>
    match find_col_preassure headers st.pres with
    | Except.error e => Except.error e
    | Except.ok pres =>
      match find_col_rh headers st.rh with
      | Except.error e => Except.error e
      | Except.ok rh =>
        match find_col_battery headers st.batt with
        | Except.error e => Except.error e
        | Except.ok batt =>
          Except.ok { st with headers := headers,
                              timestamp := find_col_timestamp headers,
                              temp := temp, pres := pres, rh := rh, batt := batt }

/-- Lines 131–132: `if self.title is None: self.title = header.strip().split(":")`. -/
def stepTitle (st : ScanState) (header : String) : ScanState :=
  if st.title.isNone then { st with title := some (titleOf header) } else st

/-- Lines 133–135: `if self.sn is None: self.sn = <SN_REGEX search result>`. -/
def stepSn (st : ScanState) (header : String) : ScanState :=
  if st.sn.isNone then { st with sn := snSearch header } else st

/-- The body of one iteration of the `while` loop at lines 129–136: capture
the title if still unset, try the serial-number pattern if still unset, then
run column detection on the line. -/
def processLine (st : ScanState) (header : String) : Except Exc ScanState :=
  find_columns (stepSn (stepTitle st header) header) header

/-- `find_headers` (lines 128–137): read and process lines until
`self.timestamp` is set; a further `next` on an exhausted source raises
`StopIteration` — the terminal failure the spec calls `HeaderNotFoundError`.
Returns the final state and the unread remainder of the source. -/
def find_headers (st : ScanState) : List String → Except Exc (ScanState × List String)
  | [] => Except.error Exc.stopIteration
  | l :: rest =>
    match processLine st l with
    | Except.error e => Except.error e
    | Except.ok st1 =>
      if st1.timestamp.isNone then find_headers st1 rest
      else Except.ok (st1, rest)

/-! ### Table assembly (src/hobo.py lines 142–185)

The pandas/mooda collaborators are outside this repository; the calls at
lines 152–182 are modelled per the external-collaborator contract of the
spec (§4.3): `read_csv` turns the unread lines into one column per
non-index header field, missing values becoming `""`; `rename` maps a
column label; `filter(items=...)` keeps exactly the present items, in item
order, and an absent (`None`) slot name selects no column; `df[k] = 0`
appends a column of zeros. Column labels are `Option String` because
renaming toward an unpopulated slot (line 168 with `self.name[...][0] ==
None`) produces a `None` label. -/

/-- A table cell: a raw CSV string or the integer `0` of a fresh QC column. -/
inductive Cell
  | str (s : String)
  | int (n : Int)
deriving DecidableEq

/-- A data frame: ordered labelled columns. -/
structure DF where
  cols : List (Option String × List Cell)
deriving DecidableEq

/-- The resulting `WaterFrame`: its metadata map and the columns of its
data frame. -/
structure WF where
  metadata : List (String × String)
  cols : List (Option String × List Cell)
deriving DecidableEq

/-- `pd.read_csv(self.f, names=self.headers, index_col=self.timestamp)`
followed by the `replace(nan, '')`: one column per header field other than
the index column, holding that field of each remaining row (missing → `""`). -/
def read_csv_model (names : List String) (idx : Nat) (rows : List (List String)) : DF :=
  { cols := ((names.enum).filter (fun p => p.1 != idx)).map
      (fun p => (some p.2, rows.map (fun r => Cell.str ((r.get? p.1).getD "")))) }

/-- The rename loop at lines 166–174: first matching keyword wins, in the
source's `elif` order `Temp`, `Pres`, `Batt`, `RH`; the new label is the
slot's display name (which is `None` when the slot never matched). -/
def renameLabel (st : ScanState) (c : Option String) : Option String :=
  match c with
  | none => none
  | some s =>
    if pyContains "Temp" s then st.temp.map Descr.name
    else if pyContains "Pres" s then st.pres.map Descr.name
    else if pyContains "Batt" s then st.batt.map Descr.name
    else if pyContains "RH" s then st.rh.map Descr.name
    else some s

/-- The `items` list of `df.filter` at lines 177–178:
`[temp[0], pres[0], batt[0], rh[0]]`. -/
def itemsOf (st : ScanState) : List (Option String) :=
  [st.temp.map Descr.name, st.pres.map Descr.name,
   st.batt.map Descr.name, st.rh.map Descr.name]

/-- `df.filter(items=...)` per the §4.3 contract: keep exactly the populated
items that are present as column labels, in item order. -/
def filterItems (df : DF) (its : List (Option String)) : DF :=
  { cols := (its.filterMap id).filterMap
      (fun n => df.cols.find? (fun c => c.1 == some n)) }

/-- Python `"{}_QC".format(label)` on a column label. -/
def labelStr : Option String → String
  | some s => s
  | none => "None"

/-- The QC loop at lines 181–182: one `"<label>_QC"` column of zeros per
retained column, appended after the data columns. -/
def addQC (df : DF) (nrows : Nat) : DF :=
  { cols := df.cols ++ df.cols.map
      (fun c => (some (labelStr c.1 ++ "_QC"), List.replicate nrows (Cell.int 0))) }

/-- Lines 152–182 composed: build the frame from the unread lines, rename,
filter to the populated channels, append QC columns. -/
def assemble (st : ScanState) (rest : List String) : DF :=
  let rows := rest.map csvParse
  let df0 := read_csv_model st.headers (st.timestamp.getD 0) rows
  let df1 : DF := { cols := df0.cols.map (fun c => (renameLabel st c.1, c.2)) }
  let df2 := filterItems df1 (itemsOf st)
  addQC df2 rows.length

/-- `from_csv` (lines 27–209, QC tests disabled): scan the headers, build the
metadata map — `metadata[self.title[0]] = self.title[1].strip()` then
`metadata["S/N"] = self.sn.strip()`, in that order, each able to raise —
then assemble the table from the unread lines. -/
def from_csv (lines : List String) : Except Exc WF :=
  match find_headers initState lines with
  | Except.error e => Except.error e
  | Except.ok (st, rest) =>
    match st.title with
    | none => Except.error Exc.typeError
    | some parts =>
      match pyGet parts 0 with
      | Except.error e => Except.error e
      | Except.ok t0 =>
        match pyGet parts 1 with
        | Except.error e => Except.error e
        | Except.ok t1 =>
          match st.sn with
          | none => Except.error Exc.attributeError
          | some s =>
            Except.ok { metadata := [(t0, pyStrip t1), ("S/N", pyStrip s)],
                        cols := (assemble st rest).cols }

/-! ### Derived predicates used to state the claims -/

/-- The last element of a list satisfying `m`, if any. -/
def lastMatch (m : String → Bool) : List String → Option String
  | [] => none
  | h :: t =>
    match lastMatch m t with
    | some x => some x
    | none => if m h then some h else none

/-- Does the line's CSV record contain a timestamp-marker field? -/
def tsLineMarker (l : String) : Bool := (csvParse l).any tsMatch

/-- Processing the line raises no exception in any channel finder: every
field whose classification triggers descriptor extraction extracts cleanly. -/
def lineOk (l : String) : Bool :=
  (csvParse l).all (fun h => !fieldNeedsDescr h || exIsOk (setDescr h))

/-! ## Basic lemmas about the Python string helpers -/

/-- Rebuilding a string from its characters is the identity. -/
theorem mkData (s : String) : String.mk s.data = s := by
  cases s
  rfl

/-- A successful `Except` carries a value. -/
theorem exIsOk_exists {α : Type} {e : Except Exc α} (h : exIsOk e = true) :
    ∃ a, e = Except.ok a := by
  cases e with
  | ok a => exact ⟨a, rfl⟩
  | error _ => simp [exIsOk] at h

/-- A list is a prefix of itself extended by anything. -/
theorem startsWithL_self_append (p r : List Char) : startsWithL p (p ++ r) = true := by
  induction p with
  | nil => rfl
  | cons c cs ih => simp [startsWithL, ih]

/-- `takeWhile` keeps everything when the predicate holds throughout. -/
theorem takeWhileAll {p : Char → Bool} : ∀ {l : List Char},
    (∀ c ∈ l, p c = true) → l.takeWhile p = l := by
  intro l
  induction l with
  | nil => intro _; rfl
  | cons c cs ih =>
    intro h
    have hc : p c = true := h c (List.mem_cons_self c cs)
    simp [List.takeWhile, hc, ih (fun x hx => h x (List.mem_cons_of_mem c hx))]

/-- Characters of the stripped string come from the original. -/
theorem mem_of_mem_stripL {p : Char → Bool} {c : Char} {cs : List Char}
    (h : c ∈ stripL p cs) : c ∈ cs := by
  unfold stripL at h
  rw [List.mem_reverse] at h
  have h1 := (List.dropWhile_sublist p).mem h
  rw [List.mem_reverse] at h1
  exact (List.dropWhile_sublist p).mem h1

/-- Splitting a separator-free character list is trivial. -/
theorem splitAllAux_no_sep {sep : Char} : ∀ {cs : List Char}, sep ∉ cs →
    ∀ acc, splitAllAux sep cs acc = [acc.reverse ++ cs] := by
  intro cs
  induction cs with
  | nil => intro _ acc; simp [splitAllAux]
  | cons c t ih =>
    intro h acc
    have hc : ¬c = sep := fun he => h (he ▸ List.mem_cons_self c t)
    have ht : sep ∉ t := fun hm => h (List.mem_cons_of_mem c hm)
    simp only [splitAllAux, if_neg hc, ih ht]
    simp [List.append_assoc]

/-- Splitting consumes the leftmost separator first. -/
theorem splitAllAux_sep {sep : Char} : ∀ {p : List Char}, sep ∉ p →
    ∀ acc r, splitAllAux sep (p ++ sep :: r) acc =
      (acc.reverse ++ p) :: splitAllAux sep r [] := by
  intro p
  induction p with
  | nil => intro _ acc r; simp [splitAllAux]
  | cons c t ih =>
    intro h acc r
    have hc : ¬c = sep := fun he => h (he ▸ List.mem_cons_self c t)
    have ht : sep ∉ t := fun hm => h (List.mem_cons_of_mem c hm)
    have hstep : splitAllAux sep ((c :: t) ++ sep :: r) acc
        = splitAllAux sep (t ++ sep :: r) (c :: acc) := by
      simp [splitAllAux, hc]
    rw [hstep, ih ht]
    simp [List.append_assoc]

/-- Bounded splitting of a separator-free character list is trivial. -/
theorem splitNAux_no_sep {sep : Char} : ∀ {cs : List Char}, sep ∉ cs →
    ∀ n acc, splitNAux sep n cs acc = [acc.reverse ++ cs] := by
  intro cs
  induction cs with
  | nil =>
    intro _ n acc
    cases n <;> simp [splitNAux]
  | cons c t ih =>
    intro h n acc
    have hc : ¬c = sep := fun he => h (he ▸ List.mem_cons_self c t)
    have ht : sep ∉ t := fun hm => h (List.mem_cons_of_mem c hm)
    cases n with
    | zero => simp [splitNAux]
    | succ m =>
      simp only [splitNAux, if_neg hc, ih ht]
      simp [List.append_assoc]

/-- Python `s.split(sep, n)` on a separator-free string returns the string. -/
theorem pySplitN_no_sep {sep : Char} {s : String} (h : sep ∉ s.data) (n : Nat) :
    pySplitN sep n s = [s] := by
  unfold pySplitN
  rw [splitNAux_no_sep h n []]
  simp [mkData]

/-- Python `s.split(sep)` on a separator-free string returns the string. -/
theorem pySplitAll_no_sep {sep : Char} {s : String} (h : sep ∉ s.data) :
    pySplitAll sep s = [s] := by
  unfold pySplitAll
  rw [splitAllAux_no_sep h []]
  simp [mkData]

/-- The timestamp search returns nothing exactly when no field carries a
timestamp marker. -/
theorem findMarkerIdx_none : ∀ {hs : List String} {i : Nat},
    findMarkerIdx hs i = none ↔ ∀ h ∈ hs, tsMatch h = false := by
  intro hs
  induction hs with
  | nil => intro i; simp [findMarkerIdx]
  | cons h t ih =>
    intro i
    cases hm : tsMatch h with
    | true => simp [findMarkerIdx, hm, List.forall_mem_cons]
    | false =>
      simp [findMarkerIdx, hm, List.forall_mem_cons]
      exact ih

/-! ## The overwrite semantics of a classification pass -/

/-- A `lastMatch` result is a matching member of the list. -/
theorem lastMatch_some {m : String → Bool} : ∀ {hs : List String} {x : String},
    lastMatch m hs = some x → x ∈ hs ∧ m x = true := by
  intro hs
  induction hs with
  | nil => intro x hx; cases hx
  | cons h t ih =>
    intro x hx
    cases hl : lastMatch m t with
    | some y =>
      rw [lastMatch, hl] at hx
      cases hx
      obtain ⟨hmem, hm⟩ := ih hl
      exact ⟨List.mem_cons_of_mem h hmem, hm⟩
    | none =>
      rw [lastMatch, hl] at hx
      by_cases hmh : m h = true
      · rw [if_pos hmh] at hx
        cases hx
        exact ⟨List.mem_cons_self h t, hmh⟩
      · rw [if_neg hmh] at hx
        cases hx

/-- If some element matches, `lastMatch` returns one. -/
theorem lastMatch_isSome {m : String → Bool} : ∀ {hs : List String},
    (∃ h ∈ hs, m h = true) → ∃ x, lastMatch m hs = some x := by
  intro hs
  induction hs with
  | nil => rintro ⟨h, hx, _⟩; cases hx
  | cons h t ih =>
    rintro ⟨x, hx, hmx⟩
    cases hl : lastMatch m t with
    | some y => exact ⟨y, by rw [lastMatch, hl]⟩
    | none =>
      rcases List.mem_cons.1 hx with hh | hmem
      · refine ⟨h, ?_⟩
        rw [lastMatch, hl, if_pos (hh ▸ hmx)]
      · obtain ⟨y, hy⟩ := ih ⟨x, hmem, hmx⟩
        rw [hl] at hy
        cases hy

/-- A pass over the fields leaves the slot at the descriptor of the LAST
matching field (overwrite semantics), or unchanged if none matches —
provided every matching field's descriptor extraction succeeds. -/
theorem passUpdate_lastMatch {m : String → Bool} : ∀ {hs : List String},
    (∀ h ∈ hs, m h = true → exIsOk (setDescr h) = true) → ∀ cur,
    passUpdate m hs cur = Except.ok
      (match lastMatch m hs with
       | none => cur
       | some h => exToOption (setDescr h)) := by
  intro hs
  induction hs with
  | nil => intro _ cur; rfl
  | cons h t ih =>
    intro hok cur
    have hokt : ∀ x ∈ t, m x = true → exIsOk (setDescr x) = true :=
      fun x hx => hok x (List.mem_cons_of_mem h hx)
    by_cases hmh : m h = true
    · obtain ⟨d, hd⟩ := exIsOk_exists (hok h (List.mem_cons_self h t) hmh)
      rw [passUpdate, if_pos hmh, hd]
      show passUpdate m t (some d) = _
      rw [ih hokt (some d)]
      cases hl : lastMatch m t with
      | some y => simp [lastMatch, hl]
      | none => simp [lastMatch, hl, hmh, hd, exToOption]
    · have hmh' : m h = false := by
        cases hb : m h
        · rfl
        · exact absurd hb hmh
      rw [passUpdate, if_neg hmh, ih hokt cur]
      cases hl : lastMatch m t with
      | some y => simp [lastMatch, hl]
      | none => simp [lastMatch, hl, hmh']

/-! ## Lemmas about `find_columns`, `processLine` and `find_headers` -/

/-- On success, `find_columns` records the line's field list and its
timestamp index, and leaves `self.title` and `self.sn` untouched. -/
theorem find_columns_fields {st : ScanState} {l : String} {st' : ScanState}
    (h : find_columns st l = Except.ok st') :
    st'.timestamp = find_col_timestamp (csvParse l) ∧ st'.title = st.title ∧
    st'.sn = st.sn ∧ st'.headers = csvParse l := by
  simp only [find_columns] at h
  cases h1 : find_col_temperature (csvParse l) st.temp with
  | error e => simp only [h1] at h; cases h
  | ok temp =>
    simp only [h1] at h
    cases h2 : find_col_preassure (csvParse l) st.pres with
    | error e => simp only [h2] at h; cases h
    | ok pres =>
      simp only [h2] at h
      cases h3 : find_col_rh (csvParse l) st.rh with
      | error e => simp only [h3] at h; cases h
      | ok rh =>
        simp only [h3] at h
        cases h4 : find_col_battery (csvParse l) st.batt with
        | error e => simp only [h4] at h; cases h
        | ok batt =>
          simp only [h4] at h
          cases h
          exact ⟨rfl, rfl, rfl, rfl⟩

/-- A line all of whose channel-matching fields extract cleanly makes
`find_columns` succeed, from any state. -/
theorem find_columns_ok {st : ScanState} {l : String} (h : lineOk l = true) :
    ∃ st', find_columns st l = Except.ok st' := by
  have hok : ∀ x ∈ csvParse l, fieldNeedsDescr x = true → exIsOk (setDescr x) = true := by
    intro x hm hneed
    have hx := (List.all_eq_true.1 h) x hm
    rw [hneed] at hx
    simpa using hx
  have hprim : ∀ x ∈ csvParse l, tempPrimaryMatch x = true → exIsOk (setDescr x) = true :=
    fun x hm hp => hok x hm (by simp [fieldNeedsDescr, hp])
  have hfall : ∀ x ∈ csvParse l, tempFallbackMatch x = true → exIsOk (setDescr x) = true :=
    fun x hm hp => hok x hm (by simp [fieldNeedsDescr, hp])
  have hpres : ∀ x ∈ csvParse l, presMatch x = true → exIsOk (setDescr x) = true :=
    fun x hm hp => hok x hm (by simp [fieldNeedsDescr, hp])
  have hrh : ∀ x ∈ csvParse l, rhMatch x = true → exIsOk (setDescr x) = true :=
    fun x hm hp => hok x hm (by simp [fieldNeedsDescr, hp])
  have hbatt : ∀ x ∈ csvParse l, battMatch x = true → exIsOk (setDescr x) = true :=
    fun x hm hp => hok x hm (by simp [fieldNeedsDescr, hp])
  obtain ⟨v1, e1⟩ : ∃ v1, passUpdate tempPrimaryMatch (csvParse l) st.temp = Except.ok v1 :=
    ⟨_, passUpdate_lastMatch hprim st.temp⟩
  obtain ⟨v2, e2⟩ : ∃ v2, passUpdate tempFallbackMatch (csvParse l) v1 = Except.ok v2 :=
    ⟨_, passUpdate_lastMatch hfall v1⟩
  have etemp : find_col_temperature (csvParse l) st.temp = Except.ok v2 := by
    simp only [find_col_temperature, e1]
    exact e2
  obtain ⟨v3, e3⟩ : ∃ v3, passUpdate presMatch (csvParse l) st.pres = Except.ok v3 :=
    ⟨_, passUpdate_lastMatch hpres st.pres⟩
  obtain ⟨v4, e4⟩ : ∃ v4, passUpdate rhMatch (csvParse l) st.rh = Except.ok v4 :=
    ⟨_, passUpdate_lastMatch hrh st.rh⟩
  obtain ⟨v5, e5⟩ : ∃ v5, passUpdate battMatch (csvParse l) st.batt = Except.ok v5 :=
    ⟨_, passUpdate_lastMatch hbatt st.batt⟩
  refine ⟨{ st with headers := csvParse l, timestamp := find_col_timestamp (csvParse l), temp := v2, pres := v3, rh := v4, batt := v5 }, ?_⟩
  simp only [find_columns, etemp, find_col_preassure, find_col_rh, find_col_battery,
    e3, e4, e5]

/-- The title-capture step leaves every other field unchanged. -/
theorem stepTitle_parts (st : ScanState) (l : String) :
    (stepTitle st l).title = (if st.title.isNone then some (titleOf l) else st.title) ∧
    (stepTitle st l).sn = st.sn := by
  unfold stepTitle
  by_cases hn : st.title.isNone <;> simp [hn]

/-- The serial-number step leaves the title unchanged. -/
theorem stepSn_title (st : ScanState) (l : String) : (stepSn st l).title = st.title := by
  unfold stepSn
  by_cases hn : st.sn.isNone <;> simp [hn]

/-- On success, a scan step sets the timestamp from the line's CSV record and
captures the title when it was not yet set. -/
theorem processLine_fields {st : ScanState} {l : String} {st' : ScanState}
    (h : processLine st l = Except.ok st') :
    st'.timestamp = find_col_timestamp (csvParse l) ∧
    st'.title = (if st.title.isNone then some (titleOf l) else st.title) := by
  unfold processLine at h
  obtain ⟨hts, hti, _, _⟩ := find_columns_fields h
  exact ⟨hts, by rw [hti, stepSn_title, (stepTitle_parts st l).1]⟩

/-- A clean line makes a scan step succeed from any state. -/
theorem processLine_ok {st : ScanState} {l : String} (h : lineOk l = true) :
    ∃ st', processLine st l = Except.ok st' := by
  simp only [processLine]
  exact find_columns_ok h

/-- The timestamp index is `None` exactly when the line has no marker field. -/
theorem ts_none_iff {l : String} :
    find_col_timestamp (csvParse l) = none ↔ tsLineMarker l = false := by
  unfold find_col_timestamp tsLineMarker
  rw [findMarkerIdx_none, List.any_eq_false]
  simp

/-- A successful scan splits the source at the first marker line: every line
up to and including it is consumed, everything after it is returned unread. -/
theorem find_headers_consumes : ∀ {lines : List String} {st0 st : ScanState}
    {rest : List String}, find_headers st0 lines = Except.ok (st, rest) →
    ∃ pre l post, lines = pre ++ l :: post ∧ (∀ x ∈ pre, tsLineMarker x = false) ∧
      tsLineMarker l = true ∧ rest = post := by
  intro lines
  induction lines with
  | nil => intro st0 st rest h; cases h
  | cons l t ih =>
    intro st0 st rest h
    rw [find_headers] at h
    cases hp : processLine st0 l with
    | error e => simp only [hp] at h; cases h
    | ok st1 =>
      simp only [hp] at h
      have hts := (processLine_fields hp).1
      by_cases hn : st1.timestamp.isNone
      · rw [if_pos hn] at h
        obtain ⟨pre, m, post, hsplit, hpre, hm, hrest⟩ := ih h
        have hmark : tsLineMarker l = false := by
          rw [← ts_none_iff, ← hts]
          exact Option.isNone_iff_eq_none.1 hn
        refine ⟨l :: pre, m, post, by rw [hsplit, List.cons_append], ?_, hm, hrest⟩
        intro x hx
        rcases List.mem_cons.1 hx with hh | hmem
        · rw [hh]; exact hmark
        · exact hpre x hmem
      · rw [if_neg hn] at h
        cases h
        have hmark : tsLineMarker l = true := by
          cases hb : tsLineMarker l
          · exact absurd (Option.isNone_iff_eq_none.2 (hts ▸ ts_none_iff.2 hb))
              (by simpa using hn)
          · rfl
        refine ⟨[], l, t, rfl, ?_, hmark, rfl⟩
        intro x hx
        cases hx

/-- A source with no marker line, each line of which classifies cleanly, is
consumed whole and the scan then fails with the exhausted-source error. -/
theorem find_headers_exhaust : ∀ {lines : List String},
    (∀ l ∈ lines, lineOk l = true) → (∀ l ∈ lines, tsLineMarker l = false) →
    ∀ st0 : ScanState, find_headers st0 lines = Except.error Exc.stopIteration := by
  intro lines
  induction lines with
  | nil => intro _ _ st0; rfl
  | cons l t ih =>
    intro hok hnm st0
    obtain ⟨st1, h1⟩ := @processLine_ok st0 l (hok l (List.mem_cons_self l t))
    have hts := (processLine_fields h1).1
    have hn : st1.timestamp.isNone := by
      rw [Option.isNone_iff_eq_none, hts, ts_none_iff]
      exact hnm l (List.mem_cons_self l t)
    rw [find_headers]
    simp only [h1]
    rw [if_pos hn]
    exact ih (fun x hx => hok x (List.mem_cons_of_mem l hx))
      (fun x hx => hnm x (List.mem_cons_of_mem l hx)) st1

/-- An already-captured title survives the rest of the scan. -/
theorem find_headers_title_persist : ∀ {lines : List String} {st0 st : ScanState}
    {rest : List String} {t : List String},
    find_headers st0 lines = Except.ok (st, rest) → st0.title = some t →
    st.title = some t := by
  intro lines
  induction lines with
  | nil => intro st0 st rest t h; cases h
  | cons l ls ih =>
    intro st0 st rest t h ht
    rw [find_headers] at h
    cases hp : processLine st0 l with
    | error e => simp only [hp] at h; cases h
    | ok st1 =>
      simp only [hp] at h
      have ht1 : st1.title = some t := by
        rw [(processLine_fields hp).2, ht]
        simp
      by_cases hn : st1.timestamp.isNone
      · rw [if_pos hn] at h
        exact ih h ht1
      · rw [if_neg hn] at h
        cases h
        exact ht1

/-- The title recorded by a successful scan is the first line's, split on
every colon. -/
theorem find_headers_first_title {l0 : String} {rest0 : List String}
    {st : ScanState} {rest : List String}
    (h : find_headers initState (l0 :: rest0) = Except.ok (st, rest)) :
    st.title = some (titleOf l0) := by
  rw [find_headers] at h
  cases hp : processLine initState l0 with
  | error e => simp only [hp] at h; cases h
  | ok st1 =>
    simp only [hp] at h
    have ht1 : st1.title = some (titleOf l0) := by
      rw [(processLine_fields hp).2]
      simp [initState]
    by_cases hn : st1.timestamp.isNone
    · rw [if_pos hn] at h
      exact find_headers_title_persist h ht1
    · rw [if_neg hn] at h
      cases h
      exact ht1

/-! ## Lemmas about the extractors, the regex and the title split -/

/-- `find_units` on a comma-free field hits `split(",", 2)[1]` out of range. -/
theorem find_units_no_comma {h : String} (hc : ',' ∉ h.data) :
    find_units h = Except.error Exc.indexError := by
  unfold find_units
  rw [pySplitN_no_sep hc 2]
  rfl

/-- Prefix mismatch on the first character refutes `startsWithL`. -/
theorem startsWithL_neq {a b : Char} {p r : List Char} (h : (a == b) = false) :
    startsWithL (a :: p) (b :: r) = false := by
  rw [startsWithL, h]
  rfl

/-- A regex match at the very first position is what `search` returns. -/
theorem snSearchL_head {cs : List Char} {r : String} (h : snMatchAt cs = some r) :
    snSearchL cs = some r := by
  cases cs with
  | nil =>
    rw [show snMatchAt ([] : List Char) = none from by decide] at h
    cases h
  | cons c rest =>
    rw [snSearchL]
    simp only [h]

/-- `SN_REGEX` matches `LGR S/N: ` (trailing space) followed by digits. -/
theorem snMatchAt_lgr {v : List Char} (hne : v ≠ [])
    (hdig : ∀ c ∈ v, c.isDigit = true) :
    snMatchAt ("LGR S/N: ".data ++ v) = some (String.mk v) := by
  show (if digitsPrefix v = [] then none else some (String.mk (digitsPrefix v)))
      = some (String.mk v)
  have htw : digitsPrefix v = v := takeWhileAll hdig
  rw [htw, if_neg hne]

/-- `SN_REGEX` matches `Serial Number:` followed IMMEDIATELY by digits — the
raw pattern has no space between the colon and `(\d+)`. -/
theorem snMatchAt_serial {v : List Char} (hne : v ≠ [])
    (hdig : ∀ c ∈ v, c.isDigit = true) :
    snMatchAt ("Serial Number:".data ++ v) = some (String.mk v) := by
  show (if digitsPrefix v = [] then none else some (String.mk (digitsPrefix v)))
      = some (String.mk v)
  have htw : digitsPrefix v = v := takeWhileAll hdig
  rw [htw, if_neg hne]

/-- Splitting `a:b:c` on every colon, when the segments are colon-free,
yields exactly the three segments. -/
theorem pySplitAll_two_seps {a b c : String} (ha : ':' ∉ a.data) (hb : ':' ∉ b.data)
    (hc : ':' ∉ c.data) :
    pySplitAll ':' (a ++ ":" ++ b ++ ":" ++ c) = [a, b, c] := by
  unfold pySplitAll
  have hcolon : (":" : String).data = [':'] := rfl
  have hdata : (a ++ ":" ++ b ++ ":" ++ c).data
      = a.data ++ ':' :: (b.data ++ ':' :: c.data) := by
    simp [String.data_append, hcolon]
  rw [hdata, splitAllAux_sep ha, splitAllAux_sep hb, splitAllAux_no_sep hc]
  simp [mkData]

/-- A colon-free first line yields a one-element title list. -/
theorem titleOf_no_colon {l : String} (h : ':' ∉ l.data) : titleOf l = [pyStrip l] := by
  unfold titleOf
  apply pySplitAll_no_sep
  intro hm
  exact h (mem_of_mem_stripL hm)

/-- When the scan succeeded but the first line had no colon, building the
metadata map fails at `self.title[1]` with an `IndexError`. -/
theorem from_csv_title_crash {l0 : String} {rest0 : List String} {st : ScanState}
    {rest : List String}
    (hfh : find_headers initState (l0 :: rest0) = Except.ok (st, rest))
    (hcolon : ':' ∉ l0.data) :
    from_csv (l0 :: rest0) = Except.error Exc.indexError := by
  have ht := find_headers_first_title hfh
  rw [titleOf_no_colon hcolon] at ht
  simp only [from_csv, hfh, ht]
  rfl

/-- With the serial number never captured, `from_csv` cannot succeed: line
146 does `self.sn.strip()` on `None`. -/
theorem from_csv_sn_none {lines : List String} {st : ScanState} {rest : List String}
    (hfh : find_headers initState lines = Except.ok (st, rest))
    (hsn : st.sn = none) : ∃ e, from_csv lines = Except.error e := by
  simp only [from_csv, hfh]
  cases htl : st.title with
  | none => exact ⟨Exc.typeError, rfl⟩
  | some parts =>
    cases h0 : pyGet parts 0 with
    | error e => exact ⟨e, by simp only [h0]⟩
    | ok t0 =>
      cases h1 : pyGet parts 1 with
      | error e => exact ⟨e, by simp only [h0, h1]⟩
      | ok t1 => exact ⟨Exc.attributeError, by simp only [h0, h1, hsn]⟩

/-! ## The claims -/

/-- Claim C1, counterexample: the source `["Temperature"]` is exhausted
before any line yields a timestamp column, yet the scan does NOT fail with
the exhausted-source error (`StopIteration`, the spec's
`HeaderNotFoundError`): the lone line's field `"Temperature"` matches the
temperature fallback and, lacking a comma, crashes descriptor extraction
with an `IndexError` before the source is consumed. -/
theorem C1_counterexample :
    (∀ l ∈ (["Temperature"] : List String), tsLineMarker l = false) ∧
    find_headers initState ["Temperature"] = Except.error Exc.indexError ∧
    Exc.indexError ≠ Exc.stopIteration :=
  ⟨by decide, by rfl, by decide⟩

/-- Claim C1, amended: for every line source exhausted before any line
yields a timestamp column, PROVIDED no line raises a malformed-field error
during channel classification, the scan fails with the exhausted-source
error (`StopIteration`; the spec's `HeaderNotFoundError`) after consuming
the entire source, and re-scanning the exhausted source yields the same
error rather than hanging. -/
theorem C1_amended (lines : List String)
    (hok : ∀ l ∈ lines, lineOk l = true)
    (hnm : ∀ l ∈ lines, tsLineMarker l = false) :
    find_headers initState lines = Except.error Exc.stopIteration ∧
    (∀ st : ScanState, find_headers st [] = Except.error Exc.stopIteration) :=
  ⟨find_headers_exhaust hok hnm initState, fun _ => rfl⟩

/-- Claim C1, witness: the amended theorem applied to a concrete clean,
marker-free two-line source. -/
theorem C1_witness :
    (∀ l ∈ (["Plot Title: x", "no timestamp here"] : List String), lineOk l = true) ∧
    (find_headers initState ["Plot Title: x", "no timestamp here"]
        = Except.error Exc.stopIteration ∧
      (∀ st : ScanState, find_headers st [] = Except.error Exc.stopIteration)) :=
  ⟨by decide, C1_amended ["Plot Title: x", "no timestamp here"] (by decide) (by decide)⟩

/-- Claim C2, the code evaluated at the failing input: no line of this file
matches the serial-number pattern, a valid column-definition line is found,
and `from_csv` nevertheless raises (`AttributeError`: line 146 runs
`self.sn.strip()` on `None`) instead of succeeding with the serial number
omitted. -/
theorem C2_bug_eval :
    (∀ l ∈ (["Plot Title: test", "Date Time, GMT"] : List String), snSearch l = none) ∧
    from_csv ["Plot Title: test", "Date Time, GMT"] = Except.error Exc.attributeError :=
  ⟨by decide, by rfl⟩

/-- Claim C3, counterexample: on the comma-free field `"NoComma"`,
`find_units` is NOT total — it raises `IndexError` (from
`split(",", 2)[1]`) and returns no string at all. -/
theorem C3_counterexample :
    (',' ∉ ("NoComma" : String).data) ∧
    find_units "NoComma" = Except.error Exc.indexError ∧
    (∀ s : String, find_units "NoComma" ≠ Except.ok s) := by
  refine ⟨by decide, by rfl, ?_⟩
  intro s h
  rw [show find_units "NoComma" = Except.error Exc.indexError from rfl] at h
  cases h

/-- Claim C3, amended: for every header field containing no comma,
`find_units` raises an `IndexError` — malformed-field decoding fails with
an exception rather than producing a garbage string. -/
theorem C3_amended (h : String) (hc : ',' ∉ h.data) :
    find_units h = Except.error Exc.indexError ∧
    (∀ s : String, find_units h ≠ Except.ok s) := by
  refine ⟨find_units_no_comma hc, ?_⟩
  intro s hs
  rw [find_units_no_comma hc] at hs
  cases hs

/-- Claim C3, witness: the amended theorem applied to the comma-free field
`"abc"`. -/
theorem C3_witness :
    (',' ∉ ("abc" : String).data) ∧
    (find_units "abc" = Except.error Exc.indexError ∧
      (∀ s : String, find_units "abc" ≠ Except.ok s)) :=
  ⟨by decide, C3_amended "abc" (by decide)⟩

/-- Claim C4, counterexample: a line reading `Serial Number: 123` — the
keyword, a colon, a SPACE, then digits, exactly as the claim's pattern
`Serial Number: <digits>` — does NOT yield a serial number, because the
regex `(?:LGR S/N: |Serial Number:)(\d+)` has no space between
`Serial Number:` and the digit group; the digits must follow the colon
immediately. -/
theorem C4_counterexample :
    snSearch "Serial Number: 123" = none ∧
    snSearch "Serial Number:123" = some "123" :=
  ⟨by rfl, by rfl⟩

/-- Claim C4, amended: for every nonempty digit string, a line beginning
`LGR S/N: ` (with the space) followed by the digits, or `Serial Number:`
followed IMMEDIATELY by the digits (no space), yields that digit group; and
the scanner records it whenever the serial number has not yet been
captured. -/
theorem C4_amended (ds : String) (hne : ds.data ≠ [])
    (hdig : ∀ c ∈ ds.data, c.isDigit = true) :
    snSearch ("LGR S/N: " ++ ds) = some ds ∧
    snSearch ("Serial Number:" ++ ds) = some ds ∧
    (∀ st : ScanState, st.sn = none →
      (stepSn st ("Serial Number:" ++ ds)).sn = some ds) := by
  have h1 : snSearch ("LGR S/N: " ++ ds) = some ds := by
    unfold snSearch
    rw [String.data_append, snSearchL_head (snMatchAt_lgr hne hdig), mkData]
  have h2 : snSearch ("Serial Number:" ++ ds) = some ds := by
    unfold snSearch
    rw [String.data_append, snSearchL_head (snMatchAt_serial hne hdig), mkData]
  refine ⟨h1, h2, ?_⟩
  intro st hsn
  unfold stepSn
  rw [hsn]
  simp [h2]

/-- Claim C4, witness: the amended theorem applied to the digit string
`"77"`. -/
theorem C4_witness :
    (("77" : String).data ≠ [] ∧ (∀ c ∈ ("77" : String).data, c.isDigit = true)) ∧
    (snSearch ("LGR S/N: " ++ "77") = some "77" ∧
      snSearch ("Serial Number:" ++ "77") = some "77" ∧
      (∀ st : ScanState, st.sn = none →
        (stepSn st ("Serial Number:" ++ "77")).sn = some "77")) :=
  ⟨⟨by decide, by decide⟩, C4_amended "77" (by decide) (by decide)⟩

/-- Claim C5, counterexample: with first line
`Plot Title: data: v2 LGR S/N: 7` (two-plus colons), the recorded title
value is `"data"` — the trimmed segment BETWEEN the first and second
colons — not the entire trimmed portion after the first colon
(`"data: v2 LGR S/N: 7"`), because line 132 splits on every colon. -/
theorem C5_counterexample :
    from_csv ["Plot Title: data: v2 LGR S/N: 7", "Date Time, GMT"]
      = Except.ok { metadata := [("Plot Title", "data"), ("S/N", "7")], cols := [] } ∧
    ("data" : String) ≠ "data: v2 LGR S/N: 7" :=
  ⟨by rfl, by decide⟩

/-- Claim C5, amended: the first line (stripped) is split on EVERY colon;
the title key is the portion before the first colon and the title value,
`self.title[1]`, is the portion between the first and second colons (then
trimmed by `from_csv`) — text after the second colon is dropped. -/
theorem C5_amended (a b c : String) (ha : ':' ∉ a.data) (hb : ':' ∉ b.data)
    (hc : ':' ∉ c.data)
    (hs : pyStrip (a ++ ":" ++ b ++ ":" ++ c) = a ++ ":" ++ b ++ ":" ++ c) :
    titleOf (a ++ ":" ++ b ++ ":" ++ c) = [a, b, c] ∧
    pyGet (titleOf (a ++ ":" ++ b ++ ":" ++ c)) 0 = Except.ok a ∧
    pyGet (titleOf (a ++ ":" ++ b ++ ":" ++ c)) 1 = Except.ok b := by
  have h1 : titleOf (a ++ ":" ++ b ++ ":" ++ c) = [a, b, c] := by
    unfold titleOf
    rw [hs]
    exact pySplitAll_two_seps ha hb hc
  exact ⟨h1, by rw [h1]; rfl, by rw [h1]; rfl⟩

/-- Claim C5, witness: the amended theorem applied to
`"Plot Title" ++ ":" ++ " data" ++ ":" ++ " v2"`. -/
theorem C5_witness :
    ((':' ∉ ("Plot Title" : String).data) ∧
      pyStrip ("Plot Title" ++ ":" ++ " data" ++ ":" ++ " v2")
        = "Plot Title" ++ ":" ++ " data" ++ ":" ++ " v2") ∧
    (titleOf ("Plot Title" ++ ":" ++ " data" ++ ":" ++ " v2")
        = ["Plot Title", " data", " v2"] ∧
      pyGet (titleOf ("Plot Title" ++ ":" ++ " data" ++ ":" ++ " v2")) 0
        = Except.ok "Plot Title" ∧
      pyGet (titleOf ("Plot Title" ++ ":" ++ " data" ++ ":" ++ " v2")) 1
        = Except.ok " data") :=
  ⟨⟨by decide, by decide⟩,
    C5_amended "Plot Title" " data" " v2" (by decide) (by decide) (by decide) (by decide)⟩

/-- Claim C6: when the header record contains both a primary temperature
field (`High Res. Temp.` / `High-Res Temp`) and a distinct fallback
temperature field (`Temp,` / `Temp.` / `Temperature`), the TEMPERATURE
slot resolves to the descriptor of the LAST field in iteration order that
matches the fallback pass, whatever the slot held before: the fallback
pass runs unconditionally after the primary pass and overwrites its
result. (Descriptor extraction must succeed on the matching fields, else
the scan raises instead.) -/
theorem C6_temperature_overwrite (headers : List String)
    (hok : ∀ h ∈ headers, fieldNeedsDescr h = true → exIsOk (setDescr h) = true)
    (hprim : ∃ h ∈ headers, tempPrimaryMatch h = true)
    (hfall : ∃ h ∈ headers, tempFallbackMatch h = true ∧ tempPrimaryMatch h = false) :
    ∃ hLast d, lastMatch tempFallbackMatch headers = some hLast ∧
      setDescr hLast = Except.ok d ∧
      (∀ cur : Option Descr, find_col_temperature headers cur = Except.ok (some d)) := by
  obtain ⟨x, hx, hxf, _⟩ := hfall
  obtain ⟨hLast, hl⟩ := lastMatch_isSome ⟨x, hx, hxf⟩
  obtain ⟨hmem, hmf⟩ := lastMatch_some hl
  have hfok : exIsOk (setDescr hLast) = true :=
    hok hLast hmem (by simp [fieldNeedsDescr, hmf])
  obtain ⟨d, hd⟩ := exIsOk_exists hfok
  refine ⟨hLast, d, hl, hd, ?_⟩
  intro cur
  have hokp : ∀ h ∈ headers, tempPrimaryMatch h = true → exIsOk (setDescr h) = true :=
    fun h hm hp => hok h hm (by simp [fieldNeedsDescr, hp])
  have hokf : ∀ h ∈ headers, tempFallbackMatch h = true → exIsOk (setDescr h) = true :=
    fun h hm hp => hok h hm (by simp [fieldNeedsDescr, hp])
  obtain ⟨v1, e1⟩ : ∃ v1, passUpdate tempPrimaryMatch headers cur = Except.ok v1 :=
    ⟨_, passUpdate_lastMatch hokp cur⟩
  have e2 := passUpdate_lastMatch hokf v1
  rw [hl] at e2
  simp only [find_col_temperature, e1]
  rw [e2]
  show Except.ok (exToOption (setDescr hLast)) = Except.ok (some d)
  rw [hd]
  rfl

/-- Claim C6, witness: a record holding a primary temperature field followed
by a fallback `Temperature` field; the fallback field is the last fallback
match and wins. -/
theorem C6_witness :
    ((∀ h ∈ (["High Res. Temp., °C", "Temperature, °C"] : List String),
        fieldNeedsDescr h = true → exIsOk (setDescr h) = true) ∧
      (∃ h ∈ (["High Res. Temp., °C", "Temperature, °C"] : List String),
        tempPrimaryMatch h = true) ∧
      (∃ h ∈ (["High Res. Temp., °C", "Temperature, °C"] : List String),
        tempFallbackMatch h = true ∧ tempPrimaryMatch h = false)) ∧
    (∃ hLast d,
      lastMatch tempFallbackMatch ["High Res. Temp., °C", "Temperature, °C"] = some hLast ∧
      setDescr hLast = Except.ok d ∧
      (∀ cur : Option Descr,
        find_col_temperature ["High Res. Temp., °C", "Temperature, °C"] cur
          = Except.ok (some d))) :=
  ⟨⟨by decide, by decide, by decide⟩,
    C6_temperature_overwrite ["High Res. Temp., °C", "Temperature, °C"]
      (by decide) (by decide) (by decide)⟩

/-- Claim C7: the header scan never over-reads — when it succeeds, the
source splits as (marker-free prefix) ++ (first marker line) ++ (rest), the
scan consumed exactly the prefix and the marker line, and the unread rest
handed to table assembly starts at the first data row. -/
theorem C7_no_overread (lines rest : List String) (st : ScanState)
    (h : find_headers initState lines = Except.ok (st, rest)) :
    ∃ pre l post, lines = pre ++ l :: post ∧ (∀ x ∈ pre, tsLineMarker x = false) ∧
      tsLineMarker l = true ∧ rest = post :=
  find_headers_consumes h

/-- Claim C7, witness: a three-line file whose second line is the
column-definition line; the scan returns exactly the third line unread. -/
theorem C7_witness :
    find_headers initState ["Plot Title: x", "Date Time, GMT", "row"]
      = Except.ok ({ title := some ["Plot Title", " x"], sn := none, timestamp := some 0, headers := ["Date Time", " GMT"], temp := none, pres := none, rh := none, batt := none }, ["row"]) ∧
    (∃ pre l post,
      (["Plot Title: x", "Date Time, GMT", "row"] : List String) = pre ++ l :: post ∧
      (∀ x ∈ pre, tsLineMarker x = false) ∧ tsLineMarker l = true ∧ ["row"] = post) :=
  ⟨by rfl, C7_no_overread ["Plot Title: x", "Date Time, GMT", "row"] ["row"] _ (by rfl)⟩

/-- Claim C8: for the header field
`Temp, °C (LGR S/N: 1, SEN S/N: 1, LBL: WaterTemp)`, the display-name
extraction (`find_name`) returns `WaterTemp` — the text after the `LBL:`
tag in the segment after the last comma — while the long-name extraction
(`find_long_name`) still returns `Temp`, the text before the first comma. -/
theorem C8_lbl_display_name :
    find_name "Temp, °C (LGR S/N: 1, SEN S/N: 1, LBL: WaterTemp)" = Except.ok "WaterTemp" ∧
    find_long_name "Temp, °C (LGR S/N: 1, SEN S/N: 1, LBL: WaterTemp)" = Except.ok "Temp" :=
  ⟨by rfl, by rfl⟩

/-- Claim C9: in every assembled table the columns are exactly the retained
data columns followed by one `"<display_name>_QC"` column per retained
column, each QC column initialized to all zeros, and every retained column
is labelled by a populated channel slot's display name (never an absent
channel); in particular the concrete file whose mapping populates only the
TEMPERATURE slot yields exactly two columns — the temperature display name
and its `_QC` companion, all QC values `0`. -/
theorem C9_qc_columns :
    (∀ (st : ScanState) (rest : List String), ∃ dataCols,
      (assemble st rest).cols = dataCols ++ dataCols.map
          (fun c => (some (labelStr c.1 ++ "_QC"), List.replicate rest.length (Cell.int 0))) ∧
      ∀ c ∈ dataCols, ∃ n, c.1 = some n ∧ some n ∈ itemsOf st) ∧
    from_csv ["Plot Title: t", "\"Date Time, GMT\",\"Temp, °C (LGR S/N: 1)\"",
        "2020-01-01 00:00,5"]
      = Except.ok { metadata := [("Plot Title", "t"), ("S/N", "1")], cols := [(some "Temp", [Cell.str "5"]), (some "Temp_QC", [Cell.int 0])] } := by
  constructor
  · intro st rest
    refine ⟨(filterItems { cols := (read_csv_model st.headers (st.timestamp.getD 0)
        (rest.map csvParse)).cols.map (fun c => (renameLabel st c.1, c.2)) }
        (itemsOf st)).cols, ?_, ?_⟩
    · show (assemble st rest).cols = _
      simp [assemble, addQC, List.length_map]
    · intro c hc
      unfold filterItems at hc
      rw [List.mem_filterMap] at hc
      obtain ⟨n, hn, hfind⟩ := hc
      rw [List.mem_filterMap] at hn
      obtain ⟨o, ho, hid⟩ := hn
      have hbeq := List.find?_some hfind
      exact ⟨n, eq_of_beq hbeq, hid ▸ ho⟩
  · rfl

/-- Claim C10: for every input whose first line contains no colon,
`from_csv` raises an `IndexError` while constructing the metadata map even
when the header scan itself succeeded: `header.strip().split(":")` yields a
one-element list and `self.title[1]` is accessed unconditionally. -/
theorem C10_no_colon_crash (l0 : String) (rest0 : List String)
    (hcolon : ':' ∉ l0.data)
    (hscan : exIsOk (find_headers initState (l0 :: rest0)) = true) :
    from_csv (l0 :: rest0) = Except.error Exc.indexError := by
  obtain ⟨p, hp⟩ := exIsOk_exists hscan
  obtain ⟨st, rest⟩ := p
  exact from_csv_title_crash hp hcolon

/-- Claim C10, witness: the single-line file whose colon-free first line is
itself the column-definition line. -/
theorem C10_witness :
    ((':' ∉ ("Date Time, GMT" : String).data) ∧
      exIsOk (find_headers initState ["Date Time, GMT"]) = true) ∧
    from_csv ["Date Time, GMT"] = Except.error Exc.indexError :=
  ⟨⟨by decide, by rfl⟩, C10_no_colon_crash "Date Time, GMT" [] (by decide) (by rfl)⟩

end Hobo
